import Mathlib

/-!
Shallow embedding of `src/fhir_mcp_server/utils.py` from the
fhir-mcp-server repository, together with theorems settling the spec
claims about it.

Python values flowing through these helpers are JSON-like dynamic
values; we embed them as the inductive type `JValue`.  Python mappings
(`dict` with string keys, as all annotated shapes here are
`Dict[str, Any]`) are association lists whose lookup returns the first
binding.  Dynamic operations that can raise in Python (`"k" in x` on a
number, `x["k"]` on a string, `.get` on a non-dict) are embedded in the
`Except PyErr` monad so that raising behaviour is part of the model.
-/

/-- Embedded JSON-like Python value. -/
inductive JValue where
  | null : JValue
  | bool : Bool → JValue
  | num : Int → JValue
  | str : String → JValue
  | arr : List JValue → JValue
  | obj : List (String × JValue) → JValue

/-- Python exceptions that the embedded dynamic operations can raise. -/
inductive PyErr where
  | typeError : PyErr
  | attributeError : PyErr
  | keyError : PyErr

/-- Python truthiness (`bool(x)`) of an embedded value: `None`, `False`,
`0`, the empty string, the empty list and the empty dict are falsy. -/
def pyTruthy : JValue → Bool
  | .null => false
  | .bool b => b
  | .num n => n != 0
  | .str s => s != ""
  | .arr xs => !xs.isEmpty
  | .obj kvs => !kvs.isEmpty

/-- First-match lookup in an embedded dict (Python dicts have unique
keys, so first-match lookup is exact). -/
def dictLookup (kvs : List (String × JValue)) (k : String) : Option JValue :=
  match kvs with
  | [] => none
  | (k₁, v) :: rest => if k₁ = k then some v else dictLookup rest k

/-- Python `k in d` for an embedded dict. -/
def dictHasKey (kvs : List (String × JValue)) (k : String) : Bool :=
  (dictLookup kvs k).isSome

/-- Python `d.get(k)` for an embedded dict: the stored value, or `None`
when the key is absent. -/
def dictGet (kvs : List (String × JValue)) (k : String) : JValue :=
  (dictLookup kvs k).getD .null

/-- Whether the first character list occurs at the head of the second. -/
def listStartsWith : List Char → List Char → Bool
  | [], _ => true
  | _ :: _, [] => false
  | p :: ps, c :: cs => p = c && listStartsWith ps cs

/-- Whether the first character list occurs contiguously anywhere in the
second (Python substring containment). -/
def listContainsSeq (pat : List Char) : List Char → Bool
  | [] => pat.isEmpty
  | c :: rest => listStartsWith pat (c :: rest) || listContainsSeq pat rest

/-- Python `key in x` on an arbitrary value, where `key` is a string:
key membership for dicts, element membership for lists, substring test
for strings, and a `TypeError` for values that are not containers. -/
def pyContains (key : String) : JValue → Except PyErr Bool
  | .obj kvs => .ok (dictHasKey kvs key)
  | .arr xs => .ok (xs.any fun x => match x with | .str s => s = key | _ => false)
  | .str s => .ok (listContainsSeq key.toList s.toList)
  | _ => .error .typeError

/-- Python `x[key]` on an arbitrary value, where `key` is a string:
dict subscription for dicts (a `KeyError` when absent), and a
`TypeError` for everything else, strings and lists included (their
subscripts must be integers). -/
def pyGetItem (x : JValue) (key : String) : Except PyErr JValue :=
  match x with
  | .obj kvs =>
    match dictLookup kvs key with
    | some v => .ok v
    | none => .error .keyError
  | _ => .error .typeError

/-- Python `x.get(key)`: dict `.get` for dicts, an `AttributeError`
for any value without a `.get` method. -/
def pyGetMethod (x : JValue) (key : String) : Except PyErr JValue :=
  match x with
  | .obj kvs => .ok (dictGet kvs key)
  | _ => .error .attributeError

/-- The list comprehension inside `get_bundle_entries`:
`[entry.get("resource") for entry in entries if "resource" in entry]`,
evaluated left to right, propagating the first exception raised. -/
def extractResources : List JValue → Except PyErr (List JValue)
  | [] => .ok []
  | entry :: rest =>
    match pyContains "resource" entry with
    | .error e => .error e
    | .ok false => extractResources rest
    | .ok true =>
      match pyGetMethod entry "resource" with
      | .error e => .error e
      | .ok r =>
        match extractResources rest with
        | .error e => .error e
        | .ok others => .ok (r :: others)

/-- Embedding of `get_bundle_entries` (utils.py lines 97–107): when
`bundle and "entry" in bundle and isinstance(bundle["entry"], list)`,
return `{"entry": [entry.get("resource") for entry in bundle["entry"]
if "resource" in entry]}`; otherwise return the input unchanged.  The
short-circuiting `and` chain is written out as nested matches, each
fallible step propagating its exception. -/
def get_bundle_entries (bundle : JValue) : Except PyErr JValue :=
  if pyTruthy bundle then
    match pyContains "entry" bundle with
    | .error e => .error e
    | .ok false => .ok bundle
    | .ok true =>
      match pyGetItem bundle "entry" with
      | .error e => .error e
      | .ok (.arr entries) =>
        match extractResources entries with
        | .error e => .error e
        | .ok rs => .ok (.obj [("entry", .arr rs)])
      | .ok _ => .ok bundle
  else
    .ok bundle

/-- Embedding of `trim_resource_capabilities` (utils.py lines 110–127):
the list comprehension keeps each capability with `"name" in capability
or "documentation" in capability` and maps it to
`{"name": capability.get("name"),
"documentation": capability.get("documentation")}`.  The input is typed
`List[Dict[str, Any]]`, so capabilities are embedded dicts. -/
def trim_resource_capabilities (capabilities : List (List (String × JValue))) :
    List (List (String × JValue)) :=
  capabilities.filterMap fun capability =>
    if dictHasKey capability "name" || dictHasKey capability "documentation" then
      some [("name", dictGet capability "name"),
            ("documentation", dictGet capability "documentation")]
    else
      none

/-- Embedding of `get_operation_outcome` (utils.py lines 142–154); the
Python `severity` parameter defaults to `"error"`, which callers obtain
by passing `"error"` here. -/
def get_operation_outcome (code diagnostics severity : String) : JValue :=
  .obj [("resourceType", .str "OperationOutcome"),
        ("issue", .arr [.obj [("severity", .str severity),
                              ("code", .str code),
                              ("diagnostics", .str diagnostics)]])]

/-- Embedding of `get_operation_outcome_exception` (utils.py lines 130–133). -/
def get_operation_outcome_exception : JValue :=
  get_operation_outcome "exception" "An unexpected internal error has occurred." "error"

/-- Embedding of `get_operation_outcome_required_error` (utils.py lines 136–139). -/
def get_operation_outcome_required_error (element : String) : JValue :=
  get_operation_outcome "required"
    ("A required element " ++ element ++ " is missing.") "error"

/-- Embedding of `get_default_headers` (utils.py lines 187–188). -/
def get_default_headers : List (String × String) :=
  [("Accept", "application/fhir+json"), ("Content-Type", "application/fhir+json")]

/-- The allow-list `fields_to_extract` inside `build_user_profile`
(utils.py lines 203–211). -/
def fields_to_extract : List String :=
  ["id", "resourceType", "name", "gender", "birthDate", "telecom", "address"]

/-- Whether an embedded value is Python `None`. -/
def JValue.isNull : JValue → Bool
  | .null => true
  | _ => false

/-- The `for field in fields_to_extract` loop of `build_user_profile`:
`value = resource.get(field); if value is not None: profile[field] = value`,
emitting bindings in loop order. -/
def buildProfileFields (resource : List (String × JValue)) :
    List String → List (String × JValue)
  | [] => []
  | field :: rest =>
    let value := dictGet resource field
    if value.isNull then
      buildProfileFields resource rest
    else
      (field, value) :: buildProfileFields resource rest

/-- Embedding of `build_user_profile` (utils.py lines 191–220). -/
def build_user_profile (resource : List (String × JValue)) :
    List (String × JValue) :=
  buildProfileFields resource fields_to_extract

/-- An HTTP response as `get_capability_statement` observes it: a
status code, and the result of attempting to parse the body as JSON
(`none` when `response.json()` would raise). -/
structure HttpResponse where
  status_code : Nat
  jsonBody : Option JValue

/-- Modelled from the spec: the outcome of the single GET that
`create_mcp_http_client` (an external library) performs against the
metadata endpoint — either a transport failure (timeout, connection
error) or a response. -/
inductive FetchOutcome where
  | transportError : FetchOutcome
  | response : HttpResponse → FetchOutcome

/-- httpx success statuses: `response.raise_for_status()` raises unless
the status code is 2xx. -/
def is_success (status : Nat) : Bool :=
  200 ≤ status && status < 300

/-- Embedding of the body of the `try` block in
`get_capability_statement`: `response.raise_for_status()` followed by
`response.json()`, each step able to raise. -/
def fetchMetadata (outcome : FetchOutcome) : Except String JValue :=
  match outcome with
  | .transportError => .error "TransportError"
  | .response r =>
    if is_success r.status_code then
      match r.jsonBody with
      | some j => .ok j
      | none => .error "JSONDecodeError"
    else
      .error "HTTPStatusError"

/-- Embedding of `get_capability_statement` (utils.py lines 157–184):
any exception raised while fetching or parsing is caught, logged, and
replaced by `ValueError("Unable to fetch FHIR metadata")`. -/
def get_capability_statement (outcome : FetchOutcome) : Except String JValue :=
  match fetchMetadata outcome with
  | .ok j => .ok j
  | .error _ => .error "Unable to fetch FHIR metadata"

/-- The `ServerConfigs` fields that `create_async_fhir_client` reads. -/
structure ServerConfigs where
  server_base_url : String
  mcp_request_timeout : Nat

/-- The keyword arguments with which `create_async_fhir_client`
constructs `AsyncFHIRClient`: base url, total timeout, extra headers
passed through, and the authorization header when one was set. -/
structure AsyncFHIRClient where
  url : String
  timeout_total : Nat
  extra_headers : Option (List (String × String))
  authorization : Option String

/-- Embedding of `create_async_fhir_client` (utils.py lines 71–94):
the `authorization` kwarg is set to `"Bearer " + access_token` only
when `if access_token:` is truthy, i.e. the token is neither `None`
nor the empty string. -/
def create_async_fhir_client (config : ServerConfigs)
    (access_token : Option String) (extra_headers : Option (List (String × String))) :
    AsyncFHIRClient :=
  { url := config.server_base_url
    timeout_total := config.mcp_request_timeout
    extra_headers := extra_headers
    authorization :=
      match access_token with
      | some t => if t = "" then none else some ("Bearer " ++ t)
      | none => none }

/-- The request body as the start hook sees it: either a dict/list
(whose JSON round-trip serialization for logging may fail) or any other
truthy object (logged via `str`). -/
inductive RequestBody where
  | jsonLike : Except String String → RequestBody
  | other : String → RequestBody

/-- The `aiohttp` trace parameters read by `on_request_start`.
Serializing arbitrary Python header and body objects is not itself
embeddable, so the trace parameters carry the outcome of each
serialization attempt: `Except.error e` stands for the attempt raising
an exception rendered as `e`.  `data = none` covers a falsy
`params.data`. -/
structure TraceRequestParams where
  url : String
  method : String
  headersSerialized : Except String String
  data : Option RequestBody

/-- A Python `try: ... except Exception as e: ...` around an expression:
the handler consumes the rendered exception. -/
def tryExcept {α : Type} (body : Except String α) (handler : String → α) : α :=
  match body with
  | .ok a => a
  | .error e => handler e

/-- Embedding of `on_request_start` (utils.py lines 30–52), returning
the sequence of logged lines.  Both serialization attempts sit inside
`try`/`except` blocks, so a failure is logged as a placeholder line and
the hook itself can only return `Except.ok`. -/
def on_request_start (p : TraceRequestParams) : Except String (List String) := do
  let intro := ["[FHIR API REQUEST]", "  URL: " ++ p.url, "  Method: " ++ p.method]
  let headerLine :=
    tryExcept (p.headersSerialized.map fun s => "  Headers: " ++ s)
      (fun e => "  Headers: <error serializing headers: " ++ e ++ ">")
  let bodyLines :=
    match p.data with
    | none => []
    | some (.jsonLike ser) =>
      [tryExcept (ser.map fun s => "  Body: " ++ s)
        (fun e => "  Body: <error serializing body: " ++ e ++ ">")]
    | some (.other s) => ["  Body: " ++ s]
  pure (intro ++ [headerLine] ++ bodyLines)

/-- Whether an embedded value is a Python mapping. -/
def JValue.isObj : JValue → Bool
  | .obj _ => true
  | _ => false

/-- Whether an entry is a mapping containing a `"resource"` key. -/
def hasResourceKey : JValue → Bool
  | .obj ekvs => dictHasKey ekvs "resource"
  | _ => false

/-- The sequence the spec describes for bundle unwrapping: the
`"resource"` values of exactly those entries that contain a
`"resource"` key, in their original relative order. -/
def resourceValuesSpec (entries : List JValue) : List JValue :=
  entries.filterMap fun e =>
    match e with
    | .obj ekvs =>
      if dictHasKey ekvs "resource" then some (dictGet ekvs "resource") else none
    | _ => none

/-- The inputs on which `get_bundle_entries` is the identity: falsy
values, mappings without a list under `"entry"`, lists without the
string `"entry"` as an element, and strings without `"entry"` as a
substring.  Truthy numbers and booleans are excluded: on those the
membership test `"entry" in bundle` raises a `TypeError`. -/
def passesThrough (x : JValue) : Bool :=
  !pyTruthy x ||
    (match x with
     | .obj kvs =>
       match dictLookup kvs "entry" with
       | some (.arr _) => false
       | _ => true
     | .arr xs => !(xs.any fun e => match e with | .str s => s = "entry" | _ => false)
     | .str s => !listContainsSeq "entry".toList s.toList
     | _ => false)

theorem extractResources_of_all_obj (entries : List JValue)
    (h : entries.all JValue.isObj = true) :
    extractResources entries = .ok (resourceValuesSpec entries) := by
  induction entries with
  | nil => rfl
  | cons e rest ih =>
    simp only [List.all_cons, Bool.and_eq_true] at h
    obtain ⟨he, hrest⟩ := h
    cases e with
    | obj ekvs =>
      have ihr := ih hrest
      cases hk : dictHasKey ekvs "resource" with
      | true =>
        simp [extractResources, resourceValuesSpec, pyContains, pyGetMethod, hk, ihr]
      | false =>
        simpa [extractResources, resourceValuesSpec, pyContains, hk] using ihr
    | null => simp [JValue.isObj] at he
    | bool b => simp [JValue.isObj] at he
    | num n => simp [JValue.isObj] at he
    | str s => simp [JValue.isObj] at he
    | arr xs => simp [JValue.isObj] at he

theorem resourceValuesSpec_length (entries : List JValue) :
    (resourceValuesSpec entries).length = entries.countP hasResourceKey := by
  induction entries with
  | nil => rfl
  | cons e rest ih =>
    cases e with
    | obj ekvs =>
      cases hk : dictHasKey ekvs "resource" with
      | true => simp [resourceValuesSpec, List.countP_cons, hasResourceKey, hk] at ih ⊢; omega
      | false => simp [resourceValuesSpec, List.countP_cons, hasResourceKey, hk] at ih ⊢; omega
    | null => simp [resourceValuesSpec, List.countP_cons, hasResourceKey] at ih ⊢; omega
    | bool b => simp [resourceValuesSpec, List.countP_cons, hasResourceKey] at ih ⊢; omega
    | num n => simp [resourceValuesSpec, List.countP_cons, hasResourceKey] at ih ⊢; omega
    | str s => simp [resourceValuesSpec, List.countP_cons, hasResourceKey] at ih ⊢; omega
    | arr xs => simp [resourceValuesSpec, List.countP_cons, hasResourceKey] at ih ⊢; omega

/-- C1 counterexample: the claim quantifies over every mapping with a
list under `"entry"`, but on `{"entry": [5]}` the filter
`"resource" in entry` raises a `TypeError` (an integer supports no
membership test), so `get_bundle_entries` raises instead of returning a
mapping. -/
theorem get_bundle_entries_raises_on_non_mapping_entry :
    get_bundle_entries (.obj [("entry", .arr [.num 5])]) = .error .typeError
    ∧ (get_bundle_entries (.obj [("entry", .arr [.num 5])])).toOption = none := by
  constructor <;> rfl

/-- C1 (amended): for every mapping whose `"entry"` key holds a list of
mappings, `get_bundle_entries` returns `{"entry": rs}` where `rs` lists
the `"resource"` values of exactly the entries containing a
`"resource"` key, in order; `rs` has length equal to the count of such
entries, hence at most the entry-list length, and every other top-level
field of the bundle is dropped. -/
theorem get_bundle_entries_unwraps_mapping_entries
    (kvs : List (String × JValue)) (entries : List JValue)
    (hentry : dictLookup kvs "entry" = some (.arr entries))
    (hobj : entries.all JValue.isObj = true) :
    get_bundle_entries (.obj kvs) = .ok (.obj [("entry", .arr (resourceValuesSpec entries))])
    ∧ (resourceValuesSpec entries).length = entries.countP hasResourceKey
    ∧ (resourceValuesSpec entries).length ≤ entries.length := by
  refine ⟨?_, resourceValuesSpec_length entries, ?_⟩
  · have hne : kvs ≠ [] := by
      intro hk
      rw [hk] at hentry
      simp [dictLookup] at hentry
    have hkey : dictHasKey kvs "entry" = true := by
      simp [dictHasKey, hentry]
    simp [get_bundle_entries, pyTruthy, List.isEmpty_eq_true, hne, pyContains, hkey,
      pyGetItem, hentry, extractResources_of_all_obj entries hobj]
  · rw [resourceValuesSpec_length]
    exact List.countP_le_length _

/-- C1 witness: a bundle with extra top-level fields and a mix of
entries with and without `"resource"`. -/
theorem get_bundle_entries_unwraps_mapping_entries_witness :
    get_bundle_entries
        (.obj [("resourceType", .str "Bundle"), ("total", .num 2),
               ("entry", .arr [.obj [("resource", .str "r1")],
                               .obj [("fullUrl", .str "u")],
                               .obj [("resource", .null)]])])
      = .ok (.obj [("entry", .arr [.str "r1", .null])]) := by
  have h := get_bundle_entries_unwraps_mapping_entries
    [("resourceType", .str "Bundle"), ("total", .num 2),
     ("entry", .arr [.obj [("resource", .str "r1")],
                     .obj [("fullUrl", .str "u")],
                     .obj [("resource", .null)]])]
    [.obj [("resource", .str "r1")], .obj [("fullUrl", .str "u")],
     .obj [("resource", .null)]]
    (by rfl) (by rfl)
  exact h.1

/-- C2 counterexample: the claim asserts `get_bundle_entries` returns
every non-bundle input unchanged and never raises, but on the truthy
non-mapping input `5` the membership test `"entry" in bundle` raises a
`TypeError`, so nothing is returned. -/
theorem get_bundle_entries_raises_on_int_input :
    get_bundle_entries (.num 5) = .error .typeError
    ∧ (get_bundle_entries (.num 5)).toOption = none := by
  constructor <;> rfl

/-- C2 (amended): `get_bundle_entries x = x` (and no exception) for
every input `x` that is falsy, or is a mapping with no list under key
`"entry"`, or is a list with no element equal to the string `"entry"`,
or is a string not containing `"entry"` as a substring; on remaining
truthy non-mapping inputs (numbers, booleans, lists or strings whose
membership test succeeds) the function raises instead of returning. -/
theorem get_bundle_entries_identity_on_passthrough_inputs
    (x : JValue) (h : passesThrough x = true) :
    get_bundle_entries x = .ok x := by
  cases x with
  | null => rfl
  | bool b =>
    simp [passesThrough, pyTruthy] at h
    simp [get_bundle_entries, pyTruthy, h]
  | num n =>
    simp [passesThrough, pyTruthy] at h
    simp [get_bundle_entries, pyTruthy, h]
  | str s =>
    by_cases hs : s = ""
    · simp [get_bundle_entries, pyTruthy, hs]
    · simp [passesThrough, pyTruthy, hs] at h
      simp [get_bundle_entries, pyTruthy, hs, pyContains, h]
  | arr xs =>
    by_cases hx : xs.isEmpty
    · simp [get_bundle_entries, pyTruthy, hx]
    · have hx2 : xs.isEmpty = false := by simpa using hx
      have h2 : (xs.any fun e => match e with | .str s => s = "entry" | _ => false)
          = false := by
        simp only [passesThrough, pyTruthy, hx2, Bool.not_false, Bool.not_true,
          Bool.false_or, Bool.not_eq_true'] at h
        exact h
      simp [get_bundle_entries, pyTruthy, hx2, pyContains, h2]
  | obj kvs =>
    by_cases hk : kvs.isEmpty
    · simp [get_bundle_entries, pyTruthy, hk]
    · simp only [passesThrough, pyTruthy, hk, Bool.not_false, Bool.true_or,
        Bool.false_or] at h
      cases hl : dictLookup kvs "entry" with
      | none =>
        have hkey : dictHasKey kvs "entry" = false := by simp [dictHasKey, hl]
        simp [get_bundle_entries, pyTruthy, hk, pyContains, hkey]
      | some v =>
        have hkey : dictHasKey kvs "entry" = true := by simp [dictHasKey, hl]
        cases v with
        | arr entries => rw [hl] at h; simp at h
        | null => simp [get_bundle_entries, pyTruthy, hk, pyContains, hkey, pyGetItem, hl]
        | bool b => simp [get_bundle_entries, pyTruthy, hk, pyContains, hkey, pyGetItem, hl]
        | num n => simp [get_bundle_entries, pyTruthy, hk, pyContains, hkey, pyGetItem, hl]
        | str s => simp [get_bundle_entries, pyTruthy, hk, pyContains, hkey, pyGetItem, hl]
        | obj kvs₂ => simp [get_bundle_entries, pyTruthy, hk, pyContains, hkey, pyGetItem, hl]

/-- C2 witness: a mapping whose `"entry"` key holds a non-list passes
through unchanged. -/
theorem get_bundle_entries_identity_on_passthrough_inputs_witness :
    get_bundle_entries (.obj [("entry", .str "notalist")])
      = .ok (.obj [("entry", .str "notalist")]) :=
  get_bundle_entries_identity_on_passthrough_inputs
    (.obj [("entry", .str "notalist")]) (by rfl)

/-- A `filterMap` whose function keeps `g a` exactly when `p a` holds
is the `map` of `g` over the `filter` by `p`. -/
theorem filterMap_guard_eq_map_filter {α β : Type} (p : α → Bool) (g : α → β) :
    ∀ l : List α, (l.filterMap fun a => if p a then some (g a) else none)
      = (l.filter p).map g := by
  intro l
  induction l with
  | nil => rfl
  | cons a l ih =>
    cases hp : p a with
    | true => simp [List.filterMap_cons, List.filter_cons, hp, ih]
    | false => simp [List.filterMap_cons, List.filter_cons, hp, ih]

/-- C3: trimming capability descriptors keeps, in order, exactly the
descriptors with a `"name"` or `"documentation"` key (explicit nulls
count as present), maps each to the two-field record with values taken
from the source (`null` standing for an absent key), never grows the
list, and emits records whose keys are exactly `name, documentation`. -/
theorem trim_resource_capabilities_spec (capabilities : List (List (String × JValue))) :
    trim_resource_capabilities capabilities
      = (capabilities.filter fun c =>
            dictHasKey c "name" || dictHasKey c "documentation").map
          (fun c => [("name", dictGet c "name"), ("documentation", dictGet c "documentation")])
    ∧ (trim_resource_capabilities capabilities).length ≤ capabilities.length
    ∧ (trim_resource_capabilities capabilities).all
        (fun c => c.map Prod.fst == ["name", "documentation"]) = true := by
  have h1 : trim_resource_capabilities capabilities
      = (capabilities.filter fun c =>
            dictHasKey c "name" || dictHasKey c "documentation").map
          (fun c => [("name", dictGet c "name"),
                     ("documentation", dictGet c "documentation")]) := by
    unfold trim_resource_capabilities
    exact filterMap_guard_eq_map_filter _ _ capabilities
  refine ⟨h1, List.length_filterMap_le _ _, ?_⟩
  rw [h1]
  simp [List.all_eq_true]

/-- The characteristic equation of `buildProfileFields`: a key is bound
in the profile exactly when it is one of the requested fields and its
source value is neither absent nor null, and then it is bound to the
source value. -/
theorem buildProfileFields_lookup (resource : List (String × JValue))
    (fields : List String) (k : String) :
    dictLookup (buildProfileFields resource fields) k =
      (if k ∈ fields ∧ (dictGet resource k).isNull = false
       then some (dictGet resource k) else none) := by
  induction fields with
  | nil => simp [buildProfileFields, dictLookup]
  | cons f rest ih =>
    by_cases hfk : f = k
    · subst hfk
      cases hn : (dictGet resource f).isNull with
      | true => simp [buildProfileFields, hn, ih]
      | false => simp [buildProfileFields, hn, dictLookup, List.mem_cons]
    · have hkf : ¬k = f := fun h => hfk h.symm
      cases hn : (dictGet resource f).isNull with
      | true => simp [buildProfileFields, hn, ih, List.mem_cons, hkf]
      | false => simp [buildProfileFields, hn, dictLookup, hfk, ih, List.mem_cons, hkf]

/-- Every binding the profile loop emits names a requested field and
carries a non-null value. -/
theorem buildProfileFields_mem (resource : List (String × JValue))
    (fields : List String) :
    ∀ kv ∈ buildProfileFields resource fields,
      kv.1 ∈ fields ∧ kv.2.isNull = false := by
  induction fields with
  | nil => intro kv hkv; simp [buildProfileFields] at hkv
  | cons f rest ih =>
    intro kv hkv
    cases hn : (dictGet resource f).isNull with
    | true =>
      simp only [buildProfileFields, hn, if_true] at hkv
      obtain ⟨h1, h2⟩ := ih kv hkv
      exact ⟨List.mem_cons_of_mem f h1, h2⟩
    | false =>
      simp only [buildProfileFields, hn, Bool.false_eq_true, if_false,
        List.mem_cons] at hkv
      rcases hkv with rfl | hkv
      · exact ⟨List.mem_cons_self f rest, hn⟩
      · obtain ⟨h1, h2⟩ := ih kv hkv
        exact ⟨List.mem_cons_of_mem f h1, h2⟩

/-- C4: `build_user_profile` binds a key exactly when it belongs to the
fixed allow-list and the source holds a non-null value for it, binding
it to that source value; every emitted binding names an allow-listed
field and is non-null. -/
theorem build_user_profile_spec (resource : List (String × JValue)) (k : String) :
    dictLookup (build_user_profile resource) k =
      (if k ∈ fields_to_extract ∧ (dictGet resource k).isNull = false
       then some (dictGet resource k) else none)
    ∧ (build_user_profile resource).all
        (fun kv => decide (kv.1 ∈ fields_to_extract) && !kv.2.isNull) = true := by
  refine ⟨buildProfileFields_lookup resource fields_to_extract k, ?_⟩
  rw [List.all_eq_true]
  intro kv hkv
  obtain ⟨h1, h2⟩ := buildProfileFields_mem resource fields_to_extract kv hkv
  simp [h1, h2]

/-- C5: the operation-outcome constructor returns exactly the fixed
shape, with the supplied severity in the severity slot (`"error"` being
the Python default argument), and in particular the required-field
example produces the exact documented mapping. -/
theorem get_operation_outcome_spec (code diagnostics severity : String) :
    get_operation_outcome code diagnostics severity
      = .obj [("resourceType", .str "OperationOutcome"),
              ("issue", .arr [.obj [("severity", .str severity),
                                    ("code", .str code),
                                    ("diagnostics", .str diagnostics)]])]
    ∧ get_operation_outcome "required" "X missing" "error"
      = .obj [("resourceType", .str "OperationOutcome"),
              ("issue", .arr [.obj [("severity", .str "error"),
                                    ("code", .str "required"),
                                    ("diagnostics", .str "X missing")]])] :=
  ⟨rfl, rfl⟩

/-- C6: whenever the metadata GET ends in a transport error, a non-2xx
status, or a body that fails to parse as JSON, `get_capability_statement`
fails with exactly the generic `ValueError("Unable to fetch FHIR
metadata")` and never surfaces the underlying exception. -/
theorem get_capability_statement_failure_collapses (outcome : FetchOutcome)
    (h : outcome = .transportError
      ∨ ∃ r, outcome = .response r
          ∧ (is_success r.status_code = false ∨ r.jsonBody = none)) :
    get_capability_statement outcome = .error "Unable to fetch FHIR metadata" := by
  rcases h with rfl | ⟨r, rfl, hr⟩
  · rfl
  · rcases hr with hs | hb
    · simp [get_capability_statement, fetchMetadata, hs]
    · cases hs : is_success r.status_code <;>
        simp [get_capability_statement, fetchMetadata, hs, hb]

/-- C6 witness: an HTTP 500 response collapses to the generic error. -/
theorem get_capability_statement_failure_collapses_witness :
    get_capability_statement (.response ⟨500, some (.str "ignored")⟩)
      = .error "Unable to fetch FHIR metadata" :=
  get_capability_statement_failure_collapses (.response ⟨500, some (.str "ignored")⟩)
    (Or.inr ⟨⟨500, some (.str "ignored")⟩, rfl, Or.inl rfl⟩)

/-- C7: a 2xx response whose body parses as JSON is returned by
`get_capability_statement` exactly as parsed, with no normalization. -/
theorem get_capability_statement_success_identity (status : Nat) (j : JValue)
    (h : is_success status = true) :
    get_capability_statement (.response ⟨status, some j⟩) = .ok j := by
  simp [get_capability_statement, fetchMetadata, h]

/-- C7 witness: an HTTP 200 response with a parsed CapabilityStatement
body comes back unmodified. -/
theorem get_capability_statement_success_identity_witness :
    get_capability_statement
        (.response ⟨200, some (.obj [("resourceType", .str "CapabilityStatement"),
                                     ("rest", .arr [])])⟩)
      = .ok (.obj [("resourceType", .str "CapabilityStatement"), ("rest", .arr [])]) :=
  get_capability_statement_success_identity 200
    (.obj [("resourceType", .str "CapabilityStatement"), ("rest", .arr [])]) (by decide)

/-- C8: with a (non-empty) token `t` supplied, the authorization header
of the constructed client is exactly `"Bearer " ++ t`; with no token
supplied, no authorization header is set and construction still
succeeds. -/
theorem create_async_fhir_client_authorization_header (config : ServerConfigs)
    (extra_headers : Option (List (String × String))) (t : String) (h : t ≠ "") :
    (create_async_fhir_client config (some t) extra_headers).authorization
        = some ("Bearer " ++ t)
    ∧ (create_async_fhir_client config none extra_headers).authorization = none := by
  constructor
  · simp [create_async_fhir_client, h]
  · rfl

/-- C8 witness: the token `"abc123"` yields the header
`"Bearer abc123"`. -/
theorem create_async_fhir_client_authorization_header_witness :
    (create_async_fhir_client ⟨"https://fhir.example.com", 30⟩ (some "abc123") none).authorization
        = some "Bearer abc123"
    ∧ (create_async_fhir_client ⟨"https://fhir.example.com", 30⟩ none none).authorization
        = none :=
  create_async_fhir_client_authorization_header ⟨"https://fhir.example.com", 30⟩
    none "abc123" (by decide)

/-- C9: the request-start hook cannot raise — on every request it
returns its log lines — and whenever the headers or the body (a dict or
list) fail to serialize for logging, the failure is recovered locally
as a placeholder log line among those it returns. -/
theorem on_request_start_never_raises (p : TraceRequestParams) :
    (on_request_start p).isOk = true
    ∧ (∀ e, p.headersSerialized = .error e →
        ∃ logs, on_request_start p = .ok logs
          ∧ ("  Headers: <error serializing headers: " ++ e ++ ">") ∈ logs)
    ∧ (∀ e, p.data = some (.jsonLike (.error e)) →
        ∃ logs, on_request_start p = .ok logs
          ∧ ("  Body: <error serializing body: " ++ e ++ ">") ∈ logs) := by
  refine ⟨rfl, ?_, ?_⟩
  · intro e hh
    refine ⟨_, rfl, ?_⟩
    simp [on_request_start, hh, tryExcept, Except.map]
  · intro e hb
    refine ⟨_, rfl, ?_⟩
    simp [on_request_start, hb, tryExcept, Except.map]

/-- C9 witness: a request whose headers serialize fine but whose body
holds a non-serializable raw binary object is logged with the body
placeholder and the hook returns normally. -/
theorem on_request_start_never_raises_witness :
    (on_request_start ⟨"https://fhir.example.com/Patient", "POST",
        .ok "Accept: application/fhir+json",
        some (.jsonLike (.error "Object of type bytes is not JSON serializable"))⟩).isOk
        = true
    ∧ ∃ logs, on_request_start ⟨"https://fhir.example.com/Patient", "POST",
        .ok "Accept: application/fhir+json",
        some (.jsonLike (.error "Object of type bytes is not JSON serializable"))⟩
        = .ok logs
      ∧ ("  Body: <error serializing body: Object of type bytes is not JSON serializable>")
          ∈ logs :=
  ⟨(on_request_start_never_raises ⟨"https://fhir.example.com/Patient", "POST",
      .ok "Accept: application/fhir+json",
      some (.jsonLike (.error "Object of type bytes is not JSON serializable"))⟩).1,
   (on_request_start_never_raises ⟨"https://fhir.example.com/Patient", "POST",
      .ok "Accept: application/fhir+json",
      some (.jsonLike (.error "Object of type bytes is not JSON serializable"))⟩).2.2
     "Object of type bytes is not JSON serializable" rfl⟩

/-- C10: the empty string as access token is falsy in Python, so
`if access_token:` skips the authorization kwarg entirely — the client
is built with no authorization header rather than `"Bearer "`. -/
theorem create_async_fhir_client_empty_token_no_authorization
    (config : ServerConfigs) (extra_headers : Option (List (String × String))) :
    (create_async_fhir_client config (some "") extra_headers).authorization = none := by
  rfl
